import Mathlib

/-!
Verification of the local LLM chat backend (`src/main.py`).

The file is a shallow embedding of the Python source:
* pydantic models become structures (`Message`, `ChatRequest`, `SaveChatRequest`);
* the streaming backend (`ollama.chat(..., stream=True)`) is modelled as a value
  `BackendBehavior`: the chunks it yields before either finishing normally or
  raising with an exception message (`failure`);
* the on-disk store `saved_chats/` becomes an association list from file stem to
  `FileData`; a file body is either not JSON (`malformed`), JSON but not a JSON
  object (`notObject` — `dict.get` then raises `AttributeError`), or a JSON
  object with optional fields (`LooseRecord`, `none` = key absent);
* Python's falsy tests on optional strings (`if not title`, `if chat.id`) are
  `pyTruthy`; Python's code-point-lexicographic string comparison is
  `charListLe` on `String.data`; `list.sort(key=..., reverse=True)` is the
  stable descending insertion sort `sortByTsDesc` (stable sorts agree on a
  total preorder key, so this is extensionally Python's sort);
* endpoints raising `HTTPException(code)` return `Except.error code`.
JSON field values that are not strings (and `null`-valued fields other than
`title`, the only field the server itself ever writes as `null`) are outside
the model; no claim below depends on them.
-/

namespace LocalLLM

/-- `class Message(BaseModel)`: one chat message. -/
structure Message where
  role : String
  content : String
deriving DecidableEq

/-- `class ChatRequest(BaseModel)`: body of `POST /api/chat`. -/
structure ChatRequest where
  model_key : String
  messages : List Message
deriving DecidableEq

/-- `class SaveChatRequest(BaseModel)`: body of `POST /api/chats`. -/
structure SaveChatRequest where
  id : Option String
  title : Option String
  model : String
  messages : List Message
deriving DecidableEq

/-- The static `MODELS` dict: key to backend model identifier. -/
def MODELS : List (String × String) :=
  [("general", "qwen2.5:3b"), ("code", "qwen2.5-coder:3b")]

/-- `get_model_name`: `MODELS.get(key, MODELS["general"])`.
(`MODELS["general"]` is present, so the inner default is unreachable.) -/
def get_model_name (key : String) : String :=
  (MODELS.lookup key).getD ((MODELS.lookup "general").getD "")

/-- The `"message"` object inside one increment from the backend;
`content?` is `none` when the `"content"` key is absent. -/
structure ChunkMessage where
  content? : Option String
deriving DecidableEq

/-- One increment of the backend stream; `message?` is `none` when the
`"message"` key is absent. -/
structure Chunk where
  message? : Option ChunkMessage
deriving DecidableEq

/-- The guarded access `"message" in chunk and "content" in chunk["message"]`,
returning `chunk["message"]["content"]` when both keys are present. -/
def chunkContent (c : Chunk) : Option String :=
  match c.message? with
  | some m => m.content?
  | none => none

/-- Observable behaviour of one `ollama.chat(..., stream=True)` call: the
chunks it yields, then `failure = some msg` if it raises an exception with
message `msg` (chunks `[]` means it raised on invocation), `none` if it
completes normally. -/
structure BackendBehavior where
  chunks : List Chunk
  failure : Option String
deriving DecidableEq

/-- Result of running a Python generator to exhaustion: the fragments it
yielded, and whether it ended normally or by raising. -/
inductive StreamResult where
  | ok (fragments : List String)
  | raised (fragments : List String) (msg : String)
deriving DecidableEq

/-- The body of the `try:` block in `generate()`: iterate the backend stream,
yielding the content of each chunk that has one; if the backend raises, the
exception escapes the loop. -/
def streamBody (b : BackendBehavior) : StreamResult :=
  match b.failure with
  | none => StreamResult.ok (b.chunks.filterMap chunkContent)
  | some msg => StreamResult.raised (b.chunks.filterMap chunkContent) msg

/-- `generate()` in `chat_stream`: the `try/except` wraps `streamBody`; an
escaping exception is converted into one final yielded fragment
`f"Error: {str(e)}"`. -/
def generate (b : BackendBehavior) : StreamResult :=
  match streamBody b with
  | StreamResult.ok fs => StreamResult.ok fs
  | StreamResult.raised fs msg => StreamResult.ok (fs ++ ["Error: " ++ msg])

/-- The external backend: model identifier and message list determine the
observable stream behaviour of `ollama.chat`. -/
def Backend : Type := String → List Message → BackendBehavior

/-- The context-window step of `chat_stream`:
`if len(messages) > 20: messages = messages[-20:]`. -/
def truncateContext (messages : List Message) : List Message :=
  if messages.length > 20 then messages.drop (messages.length - 20) else messages

/-- `POST /api/chat` (`chat_stream`): resolve the model key, truncate the
context, and relay the backend stream through `generate`. -/
def chat_stream (backend : Backend) (req : ChatRequest) : StreamResult :=
  generate (backend (get_model_name req.model_key) (truncateContext req.messages))

/-- A parsed JSON object in a record file; each field is `none` when the key
is absent.  `title?` distinguishes a present-but-`null` title
(`some none`) because `save_chat` writes `null` when no title was derived. -/
structure LooseRecord where
  id? : Option String
  title? : Option (Option String)
  timestamp? : Option String
  model? : Option String
  messages? : Option (List Message)
deriving DecidableEq

/-- A parsed JSON object with no keys at all. -/
def emptyRecord : LooseRecord := ⟨none, none, none, none, none⟩

/-- Contents of one `*.json` file in the storage directory. -/
inductive FileData where
  | malformed
  | notObject
  | obj (r : LooseRecord)
deriving DecidableEq

/-- The storage directory: file stem (name without `.json`) paired with the
file's contents, in directory-enumeration order. -/
abbrev Store : Type := List (String × FileData)

/-- `filepath.exists()` / `open(filepath)`: find the file whose stem is the
requested id. -/
def storeLookup : Store → String → Option FileData
  | [], _ => none
  | (stem, fd) :: rest, key => if stem = key then some fd else storeLookup rest key

/-- Writing `<id>.json`: replace the file with that stem, or create it. -/
def storeWrite : Store → String → FileData → Store
  | [], stem, fd => [(stem, fd)]
  | (s0, f0) :: rest, stem, fd =>
    if s0 = stem then (stem, fd) :: rest else (s0, f0) :: storeWrite rest stem fd

/-- One element of the list returned by `GET /api/chats`.  `title` is an
`Option` because `data.get("title", "Untitled")` passes a present-but-`null`
title through. -/
structure ChatSummary where
  id : String
  title : Option String
  timestamp : String
  model : String
deriving DecidableEq

/-- The summary dict built in `get_chats` for one parsed file:
`data.get` with the defaults from the source (`filepath.stem`, `"Untitled"`,
`""`, `"general"`). -/
def summarize (stem : String) (r : LooseRecord) : ChatSummary :=
  ⟨r.id?.getD stem,
   (match r.title? with | none => some "Untitled" | some v => v),
   r.timestamp?.getD "",
   r.model?.getD "general"⟩

/-- The scan loop of `get_chats`: files that raise `json.JSONDecodeError` are
skipped by the `except` clause; a parsed non-object makes `data.get` raise
`AttributeError`, which the `except (JSONDecodeError, KeyError)` clause does
not catch, so the whole request fails. -/
def collectSummaries : Store → Except Unit (List ChatSummary)
  | [] => Except.ok []
  | (_, FileData.malformed) :: rest => collectSummaries rest
  | (_, FileData.notObject) :: _ => Except.error ()
  | (stem, FileData.obj r) :: rest =>
    (collectSummaries rest).map (fun l => summarize stem r :: l)

/-- Python's string comparison on code-point sequences: `a <= b`
lexicographically. -/
def charListLe : List Char → List Char → Bool
  | [], _ => true
  | _ :: _, [] => false
  | a :: as, b :: bs =>
    if a.toNat < b.toNat then true
    else if b.toNat < a.toNat then false
    else charListLe as bs

/-- Python `a <= b` on strings (code-point lexicographic order). -/
def strLeB (a b : String) : Bool := charListLe a.data b.data

/-- Stable insertion of `x` (an originally-earlier element) into a
descending-by-timestamp sorted list: `x` goes before the first element whose
timestamp is `<=` its own, so equal timestamps keep original order. -/
def insertByTs (x : ChatSummary) : List ChatSummary → List ChatSummary
  | [] => [x]
  | y :: ys => if strLeB y.timestamp x.timestamp then x :: y :: ys else y :: insertByTs x ys

/-- `chats.sort(key=lambda x: x.get("timestamp", ""), reverse=True)`:
Python's sort is stable, and a stable sort by a total preorder key is unique,
so the stable insertion sort is extensionally the same function.  (Every
summary dict has a `"timestamp"` key, so the `.get` default is unreachable.) -/
def sortByTsDesc : List ChatSummary → List ChatSummary
  | [] => []
  | x :: xs => insertByTs x (sortByTsDesc xs)

/-- `GET /api/chats` (`get_chats`): collect the per-file summaries, then sort
by timestamp descending. -/
def get_chats (files : Store) : Except Unit (List ChatSummary) :=
  (collectSummaries files).map sortByTsDesc

/-- `GET /api/chats/{chat_id}` (`get_chat`): 404 when no `<id>.json` file
exists; 500 when the existing file fails to parse (`except Exception`);
otherwise the parsed contents are returned as-is. -/
def get_chat (store : Store) (chat_id : String) : Except Nat FileData :=
  match storeLookup store chat_id with
  | none => Except.error 404
  | some FileData.malformed => Except.error 500
  | some fd => Except.ok fd

/-- Python truthiness of an optional string: `None` and `""` are falsy. -/
def pyTruthy : Option String → Bool
  | none => false
  | some s => decide (s ≠ "")

/-- The title computation in `save_chat`: if `not title and chat.messages`,
derive from the first `"user"`-role message (`first_msg[:50] + "..."` when
`len(first_msg) > 50`), falling back to `"Untitled Chat"` when no user
message exists; otherwise keep `chat.title` unchanged. -/
def saveTitle (chat : SaveChatRequest) : Option String :=
  if !(pyTruthy chat.title) && !chat.messages.isEmpty then
    match chat.messages.filter (fun m => m.role == "user") with
    | first :: _ =>
      some (if first.content.length > 50 then first.content.take 50 ++ "..." else first.content)
    | [] => some "Untitled Chat"
  else chat.title

/-- The response body of `POST /api/chats`: `{"id": chat_id, "title": title}`. -/
structure SaveResponse where
  id : String
  title : Option String
deriving DecidableEq

/-- The JSON object `save_chat` writes to `<chat_id>.json`: all five keys are
present; `title` may be `null`. -/
def savedRecord (chat_id : String) (title : Option String) (model timestamp : String)
    (messages : List Message) : LooseRecord :=
  ⟨some chat_id, some title, some timestamp, some model, some messages⟩

/-- `POST /api/chats` (`save_chat`).  The two externally-supplied
nondeterministic inputs are explicit: `freshId` is `str(uuid.uuid4())` and
`now` is `datetime.now().isoformat()`.  `chat.id if chat.id else ...` is a
truthiness test, so an empty-string id is also replaced by the fresh one. -/
def save_chat (store : Store) (chat : SaveChatRequest) (freshId now : String) :
    Store × SaveResponse :=
  let chat_id := match chat.id with
    | some s => if s = "" then freshId else s
    | none => freshId
  let title := saveTitle chat
  (storeWrite store chat_id
    (FileData.obj (savedRecord chat_id title chat.model now chat.messages)),
   ⟨chat_id, title⟩)

/-- Concatenation of the streamed fragments: the text the HTTP client reads. -/
def joinedText : List String → String :=
  fun l => l.foldr (fun a b => a ++ b) ""

/- Concrete inputs used by witnesses and counterexamples. -/

/-- A backend increment carrying content `s`. -/
def mkChunk (s : String) : Chunk := ⟨some ⟨some s⟩⟩

/-- A backend that yields `"Hel"`, `"lo"` and then raises with message
`"boom"`, whatever model and messages it is given. -/
def demoBackend : Backend := fun _ _ => ⟨[mkChunk "Hel", mkChunk "lo"], some "boom"⟩

/-- A chat request for the demo backend. -/
def demoChatReq : ChatRequest := ⟨"general", [⟨"user", "hi"⟩]⟩

/-- A fully-populated record file with the given stem and timestamp. -/
def tsRecord (stem ts : String) : String × FileData :=
  (stem, FileData.obj ⟨some stem, some (some stem), some ts, some "general", some []⟩)

/-- Three well-formed record files with timestamps T1 < T2 < T3, listed in
directory order a, b, c. -/
def demoDir : Store :=
  [tsRecord "a" "2024-01-01", tsRecord "b" "2024-01-03", tsRecord "c" "2024-01-02"]

/-- A directory holding one well-formed record file and one unparseable file. -/
def demoMixed : Store :=
  [tsRecord "good" "2024-02-02", ("bad", FileData.malformed)]

/-- A directory whose only file parses as an object with no keys. -/
def demoBare : Store := [("only", FileData.obj emptyRecord)]

/-- A directory whose file `abc.json` carries the unrelated id field
`"xyz"`. -/
def demoAlias : Store := [("abc", FileData.obj ⟨some "xyz", none, none, none, none⟩)]

/-- A store with one good file and one corrupt file, for `get_chat`. -/
def demoGetStore : Store :=
  [("ok1", FileData.obj emptyRecord), ("bad", FileData.malformed)]

/-- 21 identical messages, one more than the context window. -/
def msgs21 : List Message := List.replicate 21 ⟨"user", "x"⟩

/-- A save request with an explicit id, an empty title and one user message. -/
def reqEmptyTitle : SaveChatRequest := ⟨some "c", some "", "general", [⟨"user", "hi"⟩]⟩

/-- A save request with no title and no messages at all. -/
def reqNoMessages : SaveChatRequest := ⟨none, none, "general", []⟩

/-- A save request with id and title supplied (both truthy). -/
def reqFull : SaveChatRequest := ⟨some "c", some "Ti", "general", [⟨"user", "hi"⟩]⟩

/-- A save request with no title whose first user message is the second entry. -/
def reqDerive : SaveChatRequest :=
  ⟨none, none, "general", [⟨"system", "s"⟩, ⟨"user", "hello"⟩]⟩

/-- A content of exactly 50 characters. -/
def content50 : String := "01234567890123456789012345678901234567890123456789"

/-- A save request with no title whose only message is a 50-character user
message. -/
def reqFifty : SaveChatRequest := ⟨none, none, "general", [⟨"user", content50⟩]⟩

/- Helper lemmas. -/

/-- `find?` returns the head of the filtered list. -/
theorem find?_eq_head?_filter {α : Type} (p : α → Bool) (l : List α) :
    l.find? p = (l.filter p).head? := by
  induction l with
  | nil => rfl
  | cons a l ih =>
    by_cases h : p a
    · rw [List.find?_cons_of_pos _ h, List.filter_cons_of_pos h]
      rfl
    · simp only [Bool.not_eq_true] at h
      rw [List.find?_cons_of_neg _ (by simp [h]), List.filter_cons_of_neg (by simp [h])]
      exact ih

/-- Looking up the stem just written returns the value just written. -/
theorem storeLookup_storeWrite (s : Store) (stem : String) (fd : FileData) :
    storeLookup (storeWrite s stem fd) stem = some fd := by
  induction s with
  | nil =>
    show (if stem = stem then some fd else storeLookup [] stem) = some fd
    rw [if_pos rfl]
  | cons p rest ih =>
    obtain ⟨s0, f0⟩ := p
    show storeLookup
        (if s0 = stem then (stem, fd) :: rest else (s0, f0) :: storeWrite rest stem fd)
        stem = some fd
    by_cases h : s0 = stem
    · rw [if_pos h]
      show (if stem = stem then some fd else storeLookup rest stem) = some fd
      rw [if_pos rfl]
    · rw [if_neg h]
      show (if s0 = stem then some f0 else storeLookup (storeWrite rest stem fd) stem)
        = some fd
      rw [if_neg h]
      exact ih

/-- The code-point order is total. -/
theorem charListLe_total (as : List Char) :
    ∀ bs, charListLe as bs = true ∨ charListLe bs as = true := by
  induction as with
  | nil => intro bs; left; rfl
  | cons a as ih =>
    intro bs
    cases bs with
    | nil => right; rfl
    | cons b bs =>
      rcases Nat.lt_trichotomy a.toNat b.toNat with h | h | h
      · left; simp [charListLe, h]
      · have h1 : ¬ a.toNat < b.toNat := by omega
        have h2 : ¬ b.toNat < a.toNat := by omega
        rcases ih bs with hle | hle
        · left; simp [charListLe, h1, h2, hle]
        · right; simp [charListLe, h1, h2, hle]
      · right; simp [charListLe, h]

/-- A step of `charListLe` forces the head code points to be ordered. -/
theorem charListLe_head_le {a b : Char} {as bs : List Char}
    (h : charListLe (a :: as) (b :: bs) = true) : a.toNat ≤ b.toNat := by
  by_contra hab
  have h2 : b.toNat < a.toNat := by omega
  have h1 : ¬ a.toNat < b.toNat := by omega
  simp [charListLe, h1, h2] at h

/-- The code-point order is transitive. -/
theorem charListLe_trans (as : List Char) :
    ∀ bs cs, charListLe as bs = true → charListLe bs cs = true →
      charListLe as cs = true := by
  induction as with
  | nil => intro bs cs _ _; rfl
  | cons a as ih =>
    intro bs cs h1 h2
    cases bs with
    | nil => simp [charListLe] at h1
    | cons b bs =>
      cases cs with
      | nil => simp [charListLe] at h2
      | cons c cs =>
        have hab : a.toNat ≤ b.toNat := charListLe_head_le h1
        have hbc : b.toNat ≤ c.toNat := charListLe_head_le h2
        by_cases hac : a.toNat < c.toNat
        · simp [charListLe, hac]
        · have heq : a.toNat = c.toNat := by omega
          have hab2 : a.toNat = b.toNat := by omega
          have hbc2 : b.toNat = c.toNat := by omega
          have e1 : ¬ a.toNat < b.toNat := by omega
          have e2 : ¬ b.toNat < a.toNat := by omega
          have e3 : ¬ b.toNat < c.toNat := by omega
          have e4 : ¬ c.toNat < b.toNat := by omega
          have e5 : ¬ c.toNat < a.toNat := by omega
          simp only [charListLe, e1, e2, if_false, if_neg] at h1
          simp only [charListLe, e3, e4, if_false, if_neg] at h2
          simp only [charListLe, hac, e5, if_false, if_neg]
          exact ih bs cs h1 h2

/-- Only the empty sequence is `<=` the empty sequence. -/
theorem charListLe_nil_right {as : List Char} (h : charListLe as [] = true) :
    as = [] := by
  cases as with
  | nil => rfl
  | cons a as => simp [charListLe] at h

/-- `strLeB` is total. -/
theorem strLeB_total (a b : String) : strLeB a b = true ∨ strLeB b a = true :=
  charListLe_total a.data b.data

/-- `strLeB` is transitive. -/
theorem strLeB_trans {a b c : String} (h1 : strLeB a b = true)
    (h2 : strLeB b c = true) : strLeB a c = true :=
  charListLe_trans a.data b.data c.data h1 h2

/-- A string `<=` the empty string is the empty string. -/
theorem strLeB_empty {s : String} (h : strLeB s "" = true) : s = "" := by
  obtain ⟨data⟩ := s
  have : data = [] := charListLe_nil_right h
  simp [this]

/-- Membership in an insertion. -/
theorem mem_insertByTs (x : ChatSummary) (l : List ChatSummary) (z : ChatSummary) :
    z ∈ insertByTs x l ↔ z = x ∨ z ∈ l := by
  induction l with
  | nil => simp [insertByTs]
  | cons y ys ih =>
    by_cases h : strLeB y.timestamp x.timestamp = true
    · simp [insertByTs, h]
    · simp only [Bool.not_eq_true] at h
      simp [insertByTs, h, ih]
      tauto

/-- Inserting into a descending-sorted list keeps it descending-sorted. -/
theorem insertByTs_pairwise (x : ChatSummary) (l : List ChatSummary)
    (hl : l.Pairwise (fun a b => strLeB b.timestamp a.timestamp = true)) :
    (insertByTs x l).Pairwise (fun a b => strLeB b.timestamp a.timestamp = true) := by
  induction l with
  | nil => simp [insertByTs]
  | cons y ys ih =>
    rcases List.pairwise_cons.1 hl with ⟨hy, hys⟩
    by_cases h : strLeB y.timestamp x.timestamp = true
    · rw [insertByTs, if_pos h]
      refine List.pairwise_cons.2 ⟨?_, hl⟩
      intro z hz
      rcases List.mem_cons.1 hz with rfl | hz
      · exact h
      · exact strLeB_trans (hy z hz) h
    · rw [insertByTs, if_neg h]
      refine List.pairwise_cons.2 ⟨?_, ih hys⟩
      intro z hz
      rcases (mem_insertByTs x ys z).1 hz with rfl | hz
      · rcases strLeB_total z.timestamp y.timestamp with hzy | hzy
        · exact hzy
        · exact absurd hzy h
      · exact hy z hz

/-- Insertion permutes a cons. -/
theorem insertByTs_perm (x : ChatSummary) (l : List ChatSummary) :
    (insertByTs x l).Perm (x :: l) := by
  induction l with
  | nil => exact List.Perm.refl _
  | cons y ys ih =>
    by_cases h : strLeB y.timestamp x.timestamp = true
    · rw [insertByTs, if_pos h]
    · rw [insertByTs, if_neg h]
      exact (ih.cons y).trans (List.Perm.swap x y ys)

/-- The stable descending sort is descending-sorted. -/
theorem sortByTsDesc_pairwise (l : List ChatSummary) :
    (sortByTsDesc l).Pairwise (fun a b => strLeB b.timestamp a.timestamp = true) := by
  induction l with
  | nil => simp [sortByTsDesc]
  | cons x xs ih => exact insertByTs_pairwise x (sortByTsDesc xs) ih

/-- The stable descending sort is a permutation of its input. -/
theorem sortByTsDesc_perm (l : List ChatSummary) : (sortByTsDesc l).Perm l := by
  induction l with
  | nil => exact List.Perm.refl _
  | cons x xs ih => exact (insertByTs_perm x (sortByTsDesc xs)).trans (ih.cons x)

/-- When no file parses as non-object JSON, the scan succeeds and returns the
summaries of exactly the object files, in directory order. -/
theorem collectSummaries_ok (files : Store)
    (h : ∀ p ∈ files, p.2 ≠ FileData.notObject) :
    collectSummaries files = Except.ok (files.filterMap (fun p =>
      match p.2 with
      | FileData.obj r => some (summarize p.1 r)
      | _ => none)) := by
  induction files with
  | nil => rfl
  | cons p rest ih =>
    obtain ⟨stem, fd⟩ := p
    have hrest : ∀ q ∈ rest, q.2 ≠ FileData.notObject := by
      intro q hq; exact h q (List.mem_cons_of_mem _ hq)
    cases fd with
    | malformed => simpa [collectSummaries, List.filterMap_cons] using ih hrest
    | notObject => exact absurd rfl (h (stem, FileData.notObject) (List.mem_cons_self _ _))
    | obj r =>
      simp only [collectSummaries, List.filterMap_cons]
      rw [ih hrest]
      rfl

/-- Every summary the scan produces comes from an object file of the
directory, via `summarize`. -/
theorem mem_collectSummaries (files : Store) :
    ∀ l, collectSummaries files = Except.ok l → ∀ s ∈ l,
      ∃ stem r, (stem, FileData.obj r) ∈ files ∧ s = summarize stem r := by
  induction files with
  | nil =>
    intro l hl s hs
    simp only [collectSummaries, Except.ok.injEq] at hl
    subst hl
    simp at hs
  | cons p rest ih =>
    intro l hl s hs
    obtain ⟨stem, fd⟩ := p
    cases fd with
    | malformed =>
      rcases ih l hl s hs with ⟨stem0, r0, hmem, hsum⟩
      exact ⟨stem0, r0, List.mem_cons_of_mem _ hmem, hsum⟩
    | notObject => simp [collectSummaries] at hl
    | obj r =>
      rw [collectSummaries] at hl
      cases hrest : collectSummaries rest with
      | error e => rw [hrest] at hl; simp [Except.map] at hl
      | ok l0 =>
        rw [hrest] at hl
        simp only [Except.map, Except.ok.injEq] at hl
        subst hl
        rcases List.mem_cons.1 hs with rfl | hs
        · exact ⟨stem, r, List.mem_cons_self _ _, rfl⟩
        · rcases ih l0 hrest s hs with ⟨stem0, r0, hmem, hsum⟩
          exact ⟨stem0, r0, List.mem_cons_of_mem _ hmem, hsum⟩

/-- Skipping content-free chunks and mapping them to empty contents produce
the same concatenated text. -/
theorem joined_filterMap (chunks : List Chunk) :
    joinedText (chunks.filterMap chunkContent)
      = joinedText (chunks.map (fun c => (chunkContent c).getD "")) := by
  induction chunks with
  | nil => rfl
  | cons c cs ih =>
    cases h : chunkContent c with
    | none =>
      have hnil : ("" : String) ++ joinedText (cs.map (fun c => (chunkContent c).getD ""))
          = joinedText (cs.map (fun c => (chunkContent c).getD "")) := by
        obtain ⟨d⟩ := joinedText (cs.map (fun c => (chunkContent c).getD ""))
        rfl
      simp [List.filterMap_cons, List.map_cons, h, joinedText, List.foldr] at hnil ⊢
      simpa [joinedText] using ih
    | some s =>
      simp only [List.filterMap_cons, List.map_cons, h, Option.getD, joinedText,
        List.foldr] at ih ⊢
      rw [ih]

/-- When a first user message exists and the given title is falsy, `saveTitle`
derives from that message. -/
theorem saveTitle_of_find (chat : SaveChatRequest)
    (h : pyTruthy chat.title = false) (m : Message)
    (hm : chat.messages.find? (fun x => x.role == "user") = some m) :
    saveTitle chat
      = some (if m.content.length > 50 then m.content.take 50 ++ "..." else m.content) := by
  rw [find?_eq_head?_filter] at hm
  have hne : chat.messages ≠ [] := by
    intro hnil
    rw [hnil] at hm
    simp at hm
  cases hf : chat.messages.filter (fun x => x.role == "user") with
  | nil => rw [hf] at hm; simp at hm
  | cons a rest =>
    rw [hf] at hm
    simp only [List.head?] at hm
    injection hm with hm
    subst hm
    rw [saveTitle, if_pos, hf]
    rw [h]
    simp [List.isEmpty_iff, hne]

/-- A successful listing is the stable descending sort of a successful scan. -/
theorem get_chats_ok (files : Store) (l : List ChatSummary)
    (h : get_chats files = Except.ok l) :
    ∃ l0, collectSummaries files = Except.ok l0 ∧ l = sortByTsDesc l0 := by
  unfold get_chats at h
  cases hc : collectSummaries files with
  | error e => rw [hc] at h; simp [Except.map] at h
  | ok l0 =>
    rw [hc] at h
    simp only [Except.map, Except.ok.injEq] at h
    exact ⟨l0, rfl, h.symm⟩

/- Claims. -/

/-- C1: for every message history and model key, if the backend streaming call
raises at any point — on invocation (no chunks yet) or mid-stream after
yielding some chunks — the fragment sequence produced by the chat relay is
exactly the fragments extracted from those chunks followed by one final
fragment `"Error: " ++ msg`, and the sequence then ends normally; moreover the
stream-producing `generate` never raises, whatever the backend does. -/
theorem relay_error_inband (backend : Backend) (req : ChatRequest)
    (chunks : List Chunk) (msg : String)
    (h : backend (get_model_name req.model_key) (truncateContext req.messages)
      = BackendBehavior.mk chunks (some msg)) :
    chat_stream backend req
      = StreamResult.ok (chunks.filterMap chunkContent ++ ["Error: " ++ msg])
    ∧ ∀ b : BackendBehavior, ∃ fs, generate b = StreamResult.ok fs := by
  constructor
  · unfold chat_stream
    rw [h]
    rfl
  · intro b
    cases hf : b.failure with
    | none =>
      exact ⟨b.chunks.filterMap chunkContent, by unfold generate streamBody; rw [hf]⟩
    | some m =>
      exact ⟨b.chunks.filterMap chunkContent ++ ["Error: " ++ m],
        by unfold generate streamBody; rw [hf]⟩

/-- C1 witness: the demo backend yields `"Hel"`, `"lo"` and then raises with
message `"boom"`; the relay produces exactly `"Hel"`, `"lo"`, `"Error: boom"`. -/
theorem relay_error_inband_witness :
    chat_stream demoBackend demoChatReq
      = StreamResult.ok ["Hel", "lo", "Error: boom"] :=
  ((relay_error_inband demoBackend demoChatReq
    [mkChunk "Hel", mkChunk "lo"] "boom" rfl).1).trans rfl

/-- C2 counterexample: the claim fails on a client-supplied empty title.  The
request supplies `title = ""` (not omitted); the saved and reloaded record
carries the derived title `"hi"`, not the supplied `""`. -/
theorem save_load_roundtrip_cex :
    get_chat (save_chat [] reqEmptyTitle "F" "T0").1
        (save_chat [] reqEmptyTitle "F" "T0").2.id
      = Except.ok (FileData.obj (savedRecord "c" (some "hi") "general" "T0"
          [⟨"user", "hi"⟩]))
    ∧ reqEmptyTitle.title = some ""
    ∧ (some "hi" : Option String) ≠ some "" :=
  ⟨rfl, rfl, by decide⟩

/-- C2 (amended): saving and then loading by the returned id yields exactly the
record that was saved; its messages sequence and model field are the request's
verbatim and its timestamp is the save-time stamp; the client's id is kept
whenever it is truthy (present and non-empty) and the client's title is kept
whenever it is truthy — the server reassigns id when absent or empty,
timestamp always, and title when absent or empty. -/
theorem save_load_roundtrip (store : Store) (chat : SaveChatRequest)
    (freshId now : String) :
    get_chat (save_chat store chat freshId now).1 (save_chat store chat freshId now).2.id
      = Except.ok (FileData.obj (savedRecord (save_chat store chat freshId now).2.id
          (saveTitle chat) chat.model now chat.messages))
    ∧ (pyTruthy chat.title = true → (save_chat store chat freshId now).2.title = chat.title)
    ∧ (pyTruthy chat.id = true → chat.id = some (save_chat store chat freshId now).2.id) := by
  refine ⟨?_, ?_, ?_⟩
  · unfold get_chat
    rw [show storeLookup (save_chat store chat freshId now).1
          (save_chat store chat freshId now).2.id
        = some (FileData.obj (savedRecord (save_chat store chat freshId now).2.id
            (saveTitle chat) chat.model now chat.messages))
      from storeLookup_storeWrite store _ _]
  · intro h
    show saveTitle chat = chat.title
    unfold saveTitle
    rw [h]
    simp
  · intro h
    obtain ⟨cid, ctitle, cmodel, cmsgs⟩ := chat
    cases cid with
    | none => simp [pyTruthy] at h
    | some s =>
      have hs : ¬ s = "" := by simpa [pyTruthy] using h
      show some s = some (if s = "" then freshId else s)
      rw [if_neg hs]

/-- C2 witness: with truthy id `"c"` and title `"Ti"` the record round-trips
verbatim, id and title included. -/
theorem save_load_roundtrip_witness :
    get_chat (save_chat [] reqFull "F" "T0").1 (save_chat [] reqFull "F" "T0").2.id
      = Except.ok (FileData.obj (savedRecord "c" (some "Ti") "general" "T0"
          [⟨"user", "hi"⟩]))
    ∧ (save_chat [] reqFull "F" "T0").2.title = some "Ti"
    ∧ reqFull.id = some ((save_chat [] reqFull "F" "T0").2.id) :=
  ⟨((save_load_roundtrip [] reqFull "F" "T0").1).trans rfl,
   (save_load_roundtrip [] reqFull "F" "T0").2.1 (by decide),
   (save_load_roundtrip [] reqFull "F" "T0").2.2 (by decide)⟩

/-- C3 counterexample: with the title omitted and an empty message list there
is no user message, yet the saved title is `null` (`none`), not the placeholder
`"Untitled Chat"`: the placeholder is only reached when the message list is
non-empty. -/
theorem derived_title_cex :
    (save_chat [] reqNoMessages "F" "T0").2.title = none
    ∧ (none : Option String) ≠ some "Untitled Chat" :=
  ⟨rfl, by decide⟩

/-- C3 (amended): with the title omitted, the derived title comes from the
first message with role `"user"`: its content when at most 50 characters, its
first 50 characters followed by `"..."` otherwise; when messages exist but
none has role `"user"` the placeholder `"Untitled Chat"` is used; when the
message list is empty no title is derived and it stays `none` (`null`). -/
theorem derived_title (chat : SaveChatRequest) (h : chat.title = none) :
    (∀ m, chat.messages.find? (fun x => x.role == "user") = some m →
      saveTitle chat
        = some (if m.content.length > 50 then m.content.take 50 ++ "..." else m.content))
    ∧ (chat.messages ≠ [] →
        chat.messages.find? (fun x => x.role == "user") = none →
        saveTitle chat = some "Untitled Chat")
    ∧ (chat.messages = [] → saveTitle chat = none) := by
  have hfalse : pyTruthy chat.title = false := by rw [h]; rfl
  refine ⟨fun m hm => saveTitle_of_find chat hfalse m hm, ?_, ?_⟩
  · intro hne hnone
    rw [find?_eq_head?_filter] at hnone
    have hfil : chat.messages.filter (fun x => x.role == "user") = [] := by
      cases hf : chat.messages.filter (fun x => x.role == "user") with
      | nil => rfl
      | cons a rest => rw [hf] at hnone; simp at hnone
    have hemp : chat.messages.isEmpty = false := by
      cases hm : chat.messages with
      | nil => exact absurd hm hne
      | cons a rest => rfl
    unfold saveTitle
    rw [hfalse, hemp, hfil]
    rfl
  · intro hnil
    have hemp : chat.messages.isEmpty = true := by rw [hnil]; rfl
    unfold saveTitle
    rw [hfalse, hemp, h]
    rfl

/-- C3 witness: title omitted and first user message `"hello"` (≤ 50 chars):
the derived title is `"hello"` itself. -/
theorem derived_title_witness :
    reqDerive.title = none ∧ saveTitle reqDerive = some "hello" :=
  ⟨rfl, ((derived_title reqDerive rfl).1 ⟨"user", "hello"⟩ rfl).trans (by decide)⟩

/-- C4: the relay calls the backend with `truncateContext` of the request
messages; a list of at most 20 messages is forwarded unchanged, and a longer
list is cut to its length-20 suffix — the last 20 entries in their original
relative order. -/
theorem context_window (req : ChatRequest) :
    (∀ backend : Backend,
      chat_stream backend req
        = generate (backend (get_model_name req.model_key) (truncateContext req.messages)))
    ∧ (req.messages.length ≤ 20 → truncateContext req.messages = req.messages)
    ∧ (20 < req.messages.length →
        (truncateContext req.messages).length = 20
        ∧ truncateContext req.messages <:+ req.messages) := by
  refine ⟨fun _ => rfl, ?_, ?_⟩
  · intro h
    rw [truncateContext, if_neg (by omega)]
  · intro h
    rw [truncateContext, if_pos (by omega)]
    exact ⟨by rw [List.length_drop]; omega, List.drop_suffix _ _⟩

/-- C4 witness: 21 messages are cut to a suffix of exactly 20. -/
theorem context_window_witness :
    20 < msgs21.length
    ∧ (truncateContext msgs21).length = 20
    ∧ truncateContext msgs21 <:+ msgs21 :=
  ⟨by decide, (context_window ⟨"general", msgs21⟩).2.2 (by decide)⟩

/-- C5 counterexample: a parseable record file missing every expected field is
not omitted from the listing — it is returned with defaulted fields — and a
file that parses as non-object JSON makes the whole listing fail instead of
being skipped. -/
theorem lenient_listing_cex :
    get_chats demoBare = Except.ok [⟨"only", some "Untitled", "", "general"⟩]
    ∧ ([⟨"only", some "Untitled", "", "general"⟩] : List ChatSummary) ≠ []
    ∧ get_chats [("nota", FileData.notObject)] = Except.error () :=
  ⟨rfl, by decide, rfl⟩

/-- C5 (amended): as long as no file parses as non-object JSON the listing
never fails: files that fail to parse as JSON are silently omitted, files that
parse as JSON objects are included — with defaults substituted for missing
fields rather than being skipped — and the result is a permutation (reordered
only by the timestamp sort) of the summaries of exactly the object files. -/
theorem lenient_listing (files : Store)
    (h : ∀ p ∈ files, p.2 ≠ FileData.notObject) :
    ∃ l, get_chats files = Except.ok l
      ∧ l.Perm (files.filterMap (fun p =>
          match p.2 with
          | FileData.obj r => some (summarize p.1 r)
          | _ => none)) := by
  refine ⟨_, ?_, sortByTsDesc_perm _⟩
  unfold get_chats
  rw [collectSummaries_ok files h]
  rfl

/-- C5 witness: one good record plus one unparseable file: the listing
succeeds with exactly the good record's summary. -/
theorem lenient_listing_witness :
    (∀ p ∈ demoMixed, p.2 ≠ FileData.notObject)
    ∧ ∃ l, get_chats demoMixed = Except.ok l
        ∧ l.Perm (demoMixed.filterMap (fun p =>
            match p.2 with
            | FileData.obj r => some (summarize p.1 r)
            | _ => none)) :=
  ⟨by decide, lenient_listing demoMixed (by decide)⟩

/-- C6: any list the listing returns is sorted by the timestamp field in
descending lexicographic (code-point) string order; consequently an entry with
an empty timestamp — the default for a missing one — is only ever followed by
entries whose timestamp is also empty, i.e. such entries appear last. -/
theorem listing_sorted (files : Store) (l : List ChatSummary)
    (h : get_chats files = Except.ok l) :
    l.Pairwise (fun a b => strLeB b.timestamp a.timestamp = true
      ∧ (a.timestamp = "" → b.timestamp = "")) := by
  obtain ⟨l0, hc, rfl⟩ := get_chats_ok files l h
  refine (sortByTsDesc_pairwise l0).imp ?_
  intro a b hab
  refine ⟨hab, fun ha => ?_⟩
  rw [ha] at hab
  exact strLeB_empty hab

/-- C6 witness: three records with timestamps T1 < T2 < T3, stored in order
T1, T3, T2, come back ordered T3, T2, T1. -/
theorem listing_sorted_witness :
    get_chats demoDir = Except.ok
      [⟨"b", some "b", "2024-01-03", "general"⟩,
       ⟨"c", some "c", "2024-01-02", "general"⟩,
       ⟨"a", some "a", "2024-01-01", "general"⟩]
    ∧ List.Pairwise (fun a b : ChatSummary => strLeB b.timestamp a.timestamp = true
        ∧ (a.timestamp = "" → b.timestamp = ""))
      [⟨"b", some "b", "2024-01-03", "general"⟩,
       ⟨"c", some "c", "2024-01-02", "general"⟩,
       ⟨"a", some "a", "2024-01-01", "general"⟩] :=
  ⟨rfl, listing_sorted demoDir _ rfl⟩

/-- C7: `get_chat` fails with 404 exactly when no file with the requested stem
exists; when a file exists its parsed contents are returned, except that a
parse failure on the existing file yields 500 — never 404. -/
theorem get_chat_contract (store : Store) (chat_id : String) :
    (get_chat store chat_id = Except.error 404 ↔ storeLookup store chat_id = none)
    ∧ (∀ fd, storeLookup store chat_id = some fd → fd ≠ FileData.malformed →
        get_chat store chat_id = Except.ok fd)
    ∧ (storeLookup store chat_id = some FileData.malformed →
        get_chat store chat_id = Except.error 500) := by
  cases h : storeLookup store chat_id with
  | none => simp [get_chat, h]
  | some fd =>
    cases fd with
    | malformed => simp [get_chat, h]
    | notObject => simp [get_chat, h]
    | obj r => simp [get_chat, h]

/-- C7 witness: a missing id gives 404, a good file gives its contents, a
corrupt file gives 500. -/
theorem get_chat_contract_witness :
    get_chat demoGetStore "missing" = Except.error 404
    ∧ get_chat demoGetStore "ok1" = Except.ok (FileData.obj emptyRecord)
    ∧ get_chat demoGetStore "bad" = Except.error 500 :=
  ⟨(get_chat_contract demoGetStore "missing").1.mpr rfl,
   (get_chat_contract demoGetStore "ok1").2.1 _ rfl (by decide),
   (get_chat_contract demoGetStore "bad").2.2 rfl⟩

/-- C8: with no backend failure the relay never fails the stream on an
increment lacking a content field (no message object, or one without content):
such increments contribute no text — exactly as if their content were empty —
and every other increment contributes its content field as a fragment, in
backend order. -/
theorem tolerant_chunks (chunks : List Chunk) :
    ∃ fs, generate ⟨chunks, none⟩ = StreamResult.ok fs
      ∧ fs = chunks.filterMap chunkContent
      ∧ joinedText fs = joinedText (chunks.map (fun c => (chunkContent c).getD "")) :=
  ⟨chunks.filterMap chunkContent, rfl, rfl, joined_filterMap chunks⟩

/-- C9 counterexample: the file `abc.json` carries the id field `"xyz"`; the
listing reports id `"xyz"`, which names no file in the directory. -/
theorem summary_fields_cex :
    get_chats demoAlias = Except.ok [⟨"xyz", some "Untitled", "", "general"⟩]
    ∧ storeLookup demoAlias "xyz" = none :=
  ⟨rfl, rfl⟩

/-- C9 (amended): every element of a returned listing has all four summary
fields, with defaults substituted when the parsed object lacks them — the
file's name stem for id, `"Untitled"` for title, `""` for timestamp,
`"general"` for model — and arises from a file that existed in the directory
at call time; the reported id, however, is the record's own id field whenever
that is present, and need not name an existing file. -/
theorem summary_fields (files : Store) (l : List ChatSummary)
    (h : get_chats files = Except.ok l) :
    ∀ s ∈ l, ∃ stem r, (stem, FileData.obj r) ∈ files
      ∧ s.id = r.id?.getD stem
      ∧ s.title = (match r.title? with | none => some "Untitled" | some v => v)
      ∧ s.timestamp = r.timestamp?.getD ""
      ∧ s.model = r.model?.getD "general" := by
  obtain ⟨l0, hc, rfl⟩ := get_chats_ok files l h
  intro s hs
  have hs0 : s ∈ l0 := ((sortByTsDesc_perm l0).mem_iff).1 hs
  rcases mem_collectSummaries files l0 hc s hs0 with ⟨stem, r, hmem, rfl⟩
  exact ⟨stem, r, hmem, rfl, rfl, rfl, rfl⟩

/-- C9 witness: the single bare-object file yields the fully-defaulted
summary. -/
theorem summary_fields_witness :
    ∃ stem r, (stem, FileData.obj r) ∈ demoBare
      ∧ ("only" : String) = r.id?.getD stem
      ∧ (some "Untitled" : Option String)
          = (match r.title? with | none => some "Untitled" | some v => v)
      ∧ ("" : String) = r.timestamp?.getD ""
      ∧ ("general" : String) = r.model?.getD "general" :=
  summary_fields demoBare [⟨"only", some "Untitled", "", "general"⟩] rfl
    ⟨"only", some "Untitled", "", "general"⟩ (List.mem_cons_self _ _)

/-- C10: with the title omitted and a first user message of exactly 50
characters, the derived title is that content verbatim with no ellipsis; the
ellipsis variant is used exactly for contents strictly longer than 50. -/
theorem title_fifty_boundary (chat : SaveChatRequest) (h : chat.title = none)
    (m : Message) (hm : chat.messages.find? (fun x => x.role == "user") = some m) :
    (m.content.length = 50 → saveTitle chat = some m.content)
    ∧ (m.content.length ≤ 50 → saveTitle chat = some m.content)
    ∧ (50 < m.content.length → saveTitle chat = some (m.content.take 50 ++ "...")) := by
  have hfalse : pyTruthy chat.title = false := by rw [h]; rfl
  have hbase := saveTitle_of_find chat hfalse m hm
  refine ⟨fun h50 => ?_, fun h50 => ?_, fun h50 => ?_⟩
  · rw [hbase, if_neg (by omega)]
  · rw [hbase, if_neg (by omega)]
  · rw [hbase, if_pos (by omega)]

/-- C10 witness: a 50-character user message gives the content itself as the
title, with no ellipsis appended. -/
theorem title_fifty_boundary_witness :
    reqFifty.title = none
    ∧ content50.length = 50
    ∧ saveTitle reqFifty = some content50 :=
  ⟨rfl, by decide,
   (title_fifty_boundary reqFifty rfl ⟨"user", content50⟩ rfl).1 (by decide)⟩

end LocalLLM
